import Mathlib

/-!
Verification model of the Showdan offer-negotiation and availability core.

The definitions below are shallow embeddings of the Python/Django code:

* accounts/utils.py                -- currency rate resolver
* events/models.py                 -- Event / OfferThread / OfferMessage / BusyTime
* events/views_offers.py           -- web negotiation views
* events/api/views_offers.py       -- API negotiation views and serializers
* events/api/views_calendar.py     -- OfferMessageViewSet accept/reject, BusyTimeViewSet.delete_day

Database rows are lists of structures, ids are natural numbers, monetary
amounts are rationals, and instants are integers counting microseconds
(Django DateTimeField precision).  Each HTTP request handler runs inside
a transaction, so it is embedded as an atomic function from the store
state to a result paired with the new store state.
-/

namespace Showdan

/-! ## Currency conversion resolver (accounts/utils.py) -/

/-- One ExchangeRate row (accounts.models.ExchangeRate): a directed
multiplicative factor between two currencies. -/
structure ExchangeRate where
  from_currency : Nat
  to_currency : Nat
  rate : ℚ
deriving DecidableEq, Repr

/-- First ExchangeRate row for the given direction, as
`ExchangeRate.objects.filter(from_currency=..., to_currency=...).first()`. -/
def findRate (table : List ExchangeRate) (f t : Nat) : Option ExchangeRate :=
  table.find? fun r => r.from_currency == f && r.to_currency == t

/-- Embedding of `get_rate` (accounts/utils.py): same currency resolves to 1,
then the direct row verbatim, then the reciprocal of a nonzero inverse row,
else no rate.  (Python `if inverse and inverse.rate:` treats a zero Decimal
as falsy, hence the nonzero guard.) -/
def get_rate (table : List ExchangeRate) (from_currency to_currency : Nat) : Option ℚ :=
  if from_currency = to_currency then some 1
  else
    match findRate table from_currency to_currency with
    | some direct => some direct.rate
    | none =>
      match findRate table to_currency from_currency with
      | some inverse => if inverse.rate ≠ 0 then some (1 / inverse.rate) else none
      | none => none

/-! ## Availability interval engine (BusyTime + delete_day) -/

/-- Number of microseconds in one day. -/
def dayLen : Int := 86400000000

/-- Number of microseconds in one second (the buffer used by delete_day). -/
def oneSecond : Int := 1000000

/-- One BusyTime row (events/models.py).  Instants are microseconds. -/
structure BusyTime where
  user : Nat
  start_datetime : Int
  end_datetime : Int
  is_all_day : Bool
  note : String
deriving DecidableEq, Repr

/-- Start of day `d`: `datetime.combine(target_day, datetime.min.time())`. -/
def day_start (d : Int) : Int := d * dayLen

/-- End of day `d`: `datetime.combine(target_day, datetime.max.time())`,
the last representable microsecond of the day. -/
def day_end (d : Int) : Int := d * dayLen + (dayLen - 1)

/-- Row selection of `BusyTime.objects.filter(user=user,
start_datetime__lte=day_end, end_datetime__gte=day_start)`. -/
def selectedForDay (u : Nat) (d : Int) (bt : BusyTime) : Prop :=
  bt.user = u ∧ bt.start_datetime ≤ day_end d ∧ day_start d ≤ bt.end_datetime

instance (u : Nat) (d : Int) (bt : BusyTime) : Decidable (selectedForDay u d bt) := by
  unfold selectedForDay; infer_instance

/-- Loop body of `BusyTimeViewSet.delete_day` (events/api/views_calendar.py)
for one row: rows outside the filter are untouched; a row fully inside the
day is deleted; a row starting before the day is truncated to one second
before day start; a row ending after the day has its start moved to one
second after day end; a row spanning both sides is split into a left
truncation and a newly created right segment. -/
def processOne (u : Nat) (d : Int) (bt : BusyTime) : List BusyTime :=
  if ¬ selectedForDay u d bt then [bt]
  else if day_start d ≤ bt.start_datetime ∧ bt.end_datetime ≤ day_end d then
    []
  else if bt.start_datetime < day_start d ∧ bt.end_datetime ≤ day_end d then
    [{ bt with end_datetime := day_start d - oneSecond }]
  else if day_start d ≤ bt.start_datetime ∧ day_end d < bt.end_datetime then
    [{ bt with start_datetime := day_end d + oneSecond }]
  else
    [{ bt with end_datetime := day_start d - oneSecond },
     { user := bt.user, start_datetime := day_end d + oneSecond,
       end_datetime := bt.end_datetime, is_all_day := bt.is_all_day, note := bt.note }]

/-- Embedding of `BusyTimeViewSet.delete_day`: the final row set together
with the reported `deleted` and `modified` counts.  The deleted count is
the number of selected rows fully inside the day; every other selected row
counts as modified (cases 2-4 of the view). -/
def delete_day (rows : List BusyTime) (u : Nat) (d : Int) : List BusyTime × Nat × Nat :=
  (rows.flatMap (processOne u d),
   rows.countP (fun bt => decide (selectedForDay u d bt ∧
      day_start d ≤ bt.start_datetime ∧ bt.end_datetime ≤ day_end d)),
   rows.countP (fun bt => decide (selectedForDay u d bt ∧
      ¬ (day_start d ≤ bt.start_datetime ∧ bt.end_datetime ≤ day_end d))))

/-- An instant is covered by a row set when some row's closed range
contains it (closed ranges match the view's own filter arithmetic). -/
def covered (rows : List BusyTime) (t : Int) : Prop :=
  ∃ bt ∈ rows, bt.start_datetime ≤ t ∧ t ≤ bt.end_datetime

instance (rows : List BusyTime) (t : Int) : Decidable (covered rows t) := by
  unfold covered; infer_instance

/-! ## Negotiation data model (events/models.py) -/

/-- `OfferMessage.Status` choices. -/
inductive Status where
  | pending
  | accepted
  | rejected
deriving DecidableEq, Repr

/-- `OfferMessage.SenderType` choices. -/
inductive SenderType where
  | professional
  | creator
deriving DecidableEq, Repr

/-- One Event row, restricted to the fields the negotiation core reads and
writes (events/models.py `Event`). -/
structure Event where
  id : Nat
  created_by : Nat
  currency : Option Nat
  is_locked : Bool
  is_posted : Bool
  accepted_thread : Option Nat
  accepted_professional : Option Nat
deriving DecidableEq, Repr

/-- One OfferThread row: one conversation per (event, professional). -/
structure OfferThread where
  id : Nat
  event : Nat
  professional : Nat
deriving DecidableEq, Repr

/-- One OfferMessage row.  `proposed_amount = none` is a plain chat
message; the status column defaults to pending for every row. -/
structure OfferMessage where
  id : Nat
  thread : Nat
  sender : Nat
  sender_type : SenderType
  message : String
  proposed_amount : Option ℚ
  proposed_currency : Option Nat
  event_currency : Option Nat
  conversion_rate : Option ℚ
  converted_amount : Option ℚ
  status : Status
  created_at : Nat
deriving DecidableEq, Repr

/-- The store state shared by all request handlers.  `pros` lists the ids
of accounts whose `account_type` is professional; `rates` is the exchange
rate table; `next_id` supplies fresh primary keys. -/
structure NegState where
  pros : List Nat
  rates : List ExchangeRate
  events : List Event
  threads : List OfferThread
  messages : List OfferMessage
  next_id : Nat
deriving DecidableEq, Repr

/-- Embedding of `is_professional(user)` / `account_type == "professional"`. -/
def isPro (s : NegState) (u : Nat) : Bool := s.pros.contains u

/-- `Event.objects.get(id=e)` as an optional lookup. -/
def findEvent (s : NegState) (e : Nat) : Option Event :=
  s.events.find? fun ev => ev.id == e

/-- `OfferThread.objects.filter(event=e, professional=p).first()`. -/
def findThread (s : NegState) (e p : Nat) : Option OfferThread :=
  s.threads.find? fun t => t.event == e && t.professional == p

/-- Thread lookup by primary key. -/
def findThreadById (s : NegState) (tid : Nat) : Option OfferThread :=
  s.threads.find? fun t => t.id == tid

/-- Message lookup by primary key. -/
def findMessage (s : NegState) (mid : Nat) : Option OfferMessage :=
  s.messages.find? fun m => m.id == mid

/-- Event of a message's thread, used by the cascade filter
`thread__event=event`. -/
def threadEvent (s : NegState) (tid : Nat) : Option Nat :=
  (findThreadById s tid).map (fun t => t.event)

/-- Apply a field update to the event with the given id (`event.save`). -/
def updateEvent (s : NegState) (e : Nat) (f : Event → Event) : NegState :=
  { s with events := s.events.map fun ev => if ev.id = e then f ev else ev }

/-- Apply a field update to the message with the given id (`msg.save`). -/
def updateMessage (s : NegState) (mid : Nat) (f : OfferMessage → OfferMessage) : NegState :=
  { s with messages := s.messages.map fun m => if m.id = mid then f m else m }

/-- A message carries a proposal (`proposed_amount__isnull=False`). -/
def isPriced (m : OfferMessage) : Bool := m.proposed_amount.isSome

/-- Ordering used by `order_by('-created_at').first()`: later creation
wins, ties broken by primary key to keep the log deterministic. -/
def laterThan (a b : OfferMessage) : Bool :=
  b.created_at < a.created_at || (a.created_at == b.created_at && b.id < a.id)

/-- The thread's most recent priced message,
`thread.messages.filter(proposed_amount__isnull=False).order_by('-created_at').first()`. -/
def latestPricedMessage (s : NegState) (tid : Nat) : Option OfferMessage :=
  (s.messages.filter fun m => m.thread == tid && isPriced m).foldl
    (fun acc m =>
      match acc with
      | none => some m
      | some b => if laterThan m b then some m else some b)
    none

/-- Outcome of a request handler, labelling the error taxonomy of the
views: 404s, permission failures, lock conflicts, validation failures. -/
inductive Result where
  | ok
  | created
  | notFound
  | forbidden
  | errLocked
  | badInput
  | alreadyApplied
  | noOffer
deriving DecidableEq, Repr

/-- Half-to-even rounding of a rational to an integer, the default Decimal
context rounding used by `.quantize(...)`. -/
def roundHalfEven (x : ℚ) : ℤ :=
  let f := Int.floor x
  let r := x - f
  if r < 1 / 2 then f
  else if 1 / 2 < r then f + 1
  else if f % 2 = 0 then f else f + 1

/-- Quantize to two decimal places (`.quantize(Decimal('0.01'))`, and
`.quantize(amount)` where the form amount has two decimal places). -/
def quantize2 (x : ℚ) : ℚ := (roundHalfEven (x * 100) : ℚ) / 100

/-! ## Negotiation thread store and booking orchestrator operations -/

/-- Embedding of `OfferThread.objects.get_or_create(event=e, professional=p)`:
returns the thread id, whether a row was created, and the new state. -/
def get_or_create_thread (s : NegState) (e p : Nat) : Nat × Bool × NegState :=
  match findThread s e p with
  | some t => (t.id, false, s)
  | none =>
    (s.next_id, true,
     { s with threads := s.threads ++ [{ id := s.next_id, event := e, professional := p }],
              next_id := s.next_id + 1 })

/-- Conversion snapshot computed when a professional sends an offer:
`rate = get_rate(from_cur, event_cur)` and the quantized converted amount
when a rate exists (events/views_offers.py `send_offer_message`,
events/api/serializers_offers.py `OfferCreateSerializer.create`). -/
def conversionSnapshot (s : NegState) (event_cur : Option Nat) (from_cur : Nat)
    (amount : ℚ) : Option ℚ × Option ℚ :=
  match event_cur with
  | none => (none, none)
  | some ec =>
    match get_rate s.rates from_cur ec with
    | none => (none, none)
    | some r => (some r, some (quantize2 (amount * r)))

/-- Embedding of `send_offer_message` (events/views_offers.py): lock check,
professional check, the `refresh_from_db` lock re-check (atomic with the
write, so it reads the same state), thread get-or-create, then the priced
pending message.  `now` is the request time stamping `created_at`. -/
def send_offer_message (s : NegState) (event_id actor : Nat) (amount : ℚ)
    (from_cur : Nat) (msgtext : String) (now : Nat) : Result × NegState :=
  match findEvent s event_id with
  | none => (.notFound, s)
  | some ev =>
    if ev.is_locked then (.errLocked, s)
    else if ¬ isPro s actor then (.forbidden, s)
    else if ev.is_locked then (.errLocked, s)
    else
      let gc := get_or_create_thread s ev.id actor
      let s1 := gc.2.2
      let snap := conversionSnapshot s1 ev.currency from_cur amount
      (.ok,
       { s1 with
          messages := s1.messages ++
            [{ id := s1.next_id, thread := gc.1, sender := actor,
               sender_type := .professional, message := msgtext,
               proposed_amount := some amount, proposed_currency := some from_cur,
               event_currency := ev.currency, conversion_rate := snap.1,
               converted_amount := snap.2, status := .pending, created_at := now }],
          next_id := s1.next_id + 1 })

/-- Embedding of `SendOfferView` with `OfferCreateSerializer`
(events/api/views_offers.py, events/api/serializers_offers.py): the
serializer validates professional role, a posted event, the lock state and
non-ownership before `create` appends the priced pending message. -/
def send_offer_api (s : NegState) (event_id actor : Nat) (amount : ℚ)
    (from_cur : Nat) (msgtext : String) (now : Nat) : Result × NegState :=
  if ¬ isPro s actor then (.forbidden, s)
  else
    match s.events.find? (fun ev => ev.id == event_id && ev.is_posted) with
    | none => (.notFound, s)
    | some ev =>
      if ev.is_locked then (.errLocked, s)
      else if ev.created_by = actor then (.badInput, s)
      else
        let gc := get_or_create_thread s ev.id actor
        let s1 := gc.2.2
        let snap := conversionSnapshot s1 ev.currency from_cur amount
        (.created,
         { s1 with
            messages := s1.messages ++
              [{ id := s1.next_id, thread := gc.1, sender := actor,
                 sender_type := .professional, message := msgtext,
                 proposed_amount := some amount, proposed_currency := some from_cur,
                 event_currency := ev.currency, conversion_rate := snap.1,
                 converted_amount := snap.2, status := .pending, created_at := now }],
            next_id := s1.next_id + 1 })

/-- Embedding of `counter_offer_view` (events/views_offers.py): creator-owned
event, existing thread, lock check, then a pending counter message in the
event currency with conversion rate exactly 1 when that currency exists. -/
def counter_offer_view (s : NegState) (event_id pro_id actor : Nat) (amount : ℚ)
    (msgtext : String) (now : Nat) : Result × NegState :=
  match s.events.find? (fun ev => ev.id == event_id && ev.created_by == actor) with
  | none => (.notFound, s)
  | some ev =>
    match findThread s ev.id pro_id with
    | none => (.notFound, s)
    | some thread =>
      if ev.is_locked then (.errLocked, s)
      else
        (.ok,
         { s with
            messages := s.messages ++
              [{ id := s.next_id, thread := thread.id, sender := actor,
                 sender_type := .creator, message := msgtext,
                 proposed_amount := some amount, proposed_currency := ev.currency,
                 event_currency := ev.currency,
                 conversion_rate := if ev.currency.isSome then some 1 else none,
                 converted_amount := if ev.currency.isSome then some amount else none,
                 status := .pending, created_at := now }],
            next_id := s.next_id + 1 })

/-- Embedding of `send_chat_message_view` (events/views_offers.py):
participant check, locked events only allow the accepted thread, nonempty
text, then a non-priced message (whose status column still defaults to
pending). -/
def send_chat_message_view (s : NegState) (thread_id actor : Nat) (text : String)
    (now : Nat) : Result × NegState :=
  match findThreadById s thread_id with
  | none => (.notFound, s)
  | some thread =>
    match findEvent s thread.event with
    | none => (.notFound, s)
    | some ev =>
      if actor ≠ thread.professional ∧ actor ≠ ev.created_by then (.forbidden, s)
      else if ev.is_locked ∧ ev.accepted_thread ≠ some thread.id then (.errLocked, s)
      else if text = "" then (.badInput, s)
      else
        (.ok,
         { s with
            messages := s.messages ++
              [{ id := s.next_id, thread := thread.id, sender := actor,
                 sender_type := if isPro s actor then .professional else .creator,
                 message := text, proposed_amount := none, proposed_currency := none,
                 event_currency := none, conversion_rate := none,
                 converted_amount := none, status := .pending, created_at := now }],
            next_id := s.next_id + 1 })

/-- Embedding of `accept_offer_view` (events/views_offers.py): the creator
accepts the latest priced message of the thread.  The view locks the event
and records `accepted_thread` (it does not set `accepted_professional`),
performs no lock precondition check and no cascade. -/
def accept_offer_view (s : NegState) (event_id pro_id actor : Nat) : Result × NegState :=
  match s.events.find? (fun ev => ev.id == event_id && ev.created_by == actor) with
  | none => (.notFound, s)
  | some ev =>
    match findThread s ev.id pro_id with
    | none => (.notFound, s)
    | some thread =>
      match latestPricedMessage s thread.id with
      | none => (.noOffer, s)
      | some last =>
        let s1 := updateEvent s ev.id fun e =>
          { e with is_locked := true, accepted_thread := some thread.id }
        (.ok, updateMessage s1 last.id fun m => { m with status := .accepted })

/-- Embedding of `reject_offer_view` (events/views_offers.py): the creator
rejects the latest priced message of the thread, with no check of its
current status and no event change. -/
def reject_offer_view (s : NegState) (event_id pro_id actor : Nat) : Result × NegState :=
  match s.events.find? (fun ev => ev.id == event_id && ev.created_by == actor) with
  | none => (.notFound, s)
  | some ev =>
    match findThread s ev.id pro_id with
    | none => (.notFound, s)
    | some thread =>
      match latestPricedMessage s thread.id with
      | none => (.noOffer, s)
      | some last =>
        (.ok, updateMessage s last.id fun m => { m with status := .rejected })

/-- Embedding of `OfferActionView.post` (events/api/views_offers.py):
dispatch on the `action` field; accept locks the event, records the
accepted thread and professional and marks the latest priced message
accepted (no lock precondition, no cascade); reject marks it rejected. -/
def offer_action_post (s : NegState) (event_id pro_id actor : Nat) (act : String) :
    Result × NegState :=
  match s.events.find? (fun ev => ev.id == event_id && ev.created_by == actor) with
  | none => (.notFound, s)
  | some ev =>
    match findThread s ev.id pro_id with
    | none => (.notFound, s)
    | some thread =>
      if act ≠ "accept" ∧ act ≠ "reject" then (.badInput, s)
      else
        match latestPricedMessage s thread.id with
        | none => (.noOffer, s)
        | some last =>
          if act = "accept" then
            let s1 := updateEvent s ev.id fun e =>
              { e with is_locked := true, accepted_thread := some thread.id,
                       accepted_professional := some thread.professional }
            (.ok, updateMessage s1 last.id fun m => { m with status := .accepted })
          else
            (.ok, updateMessage s last.id fun m => { m with status := .rejected })

/-- Embedding of `OfferMessageViewSet.accept` (events/api/views_calendar.py):
any message the creator addresses by primary key is marked accepted, the
event is locked with accepted thread and professional recorded, and every
other message of the event whose status is pending is updated to rejected
(the cascade filter does not require a proposed amount). -/
def offer_message_accept (s : NegState) (pk actor : Nat) : Result × NegState :=
  match findMessage s pk with
  | none => (.notFound, s)
  | some msg =>
    match findThreadById s msg.thread with
    | none => (.notFound, s)
    | some thread =>
      match findEvent s thread.event with
      | none => (.notFound, s)
      | some ev =>
        if actor ≠ ev.created_by then (.forbidden, s)
        else
          let s1 := updateMessage s pk fun m => { m with status := .accepted }
          let s2 := updateEvent s1 ev.id fun e =>
            { e with is_locked := true, accepted_thread := some thread.id,
                     accepted_professional := some thread.professional }
          let s3 :=
            { s2 with
               messages := s2.messages.map fun m =>
                 if m.id ≠ pk ∧ m.status = .pending ∧ threadEvent s2 m.thread = some ev.id
                 then { m with status := .rejected } else m }
          (.ok, s3)

/-- Embedding of `OfferMessageViewSet.reject` (events/api/views_calendar.py):
any message the creator addresses by primary key is marked rejected,
whatever its current status. -/
def offer_message_reject (s : NegState) (pk actor : Nat) : Result × NegState :=
  match findMessage s pk with
  | none => (.notFound, s)
  | some msg =>
    match findThreadById s msg.thread with
    | none => (.notFound, s)
    | some thread =>
      match findEvent s thread.event with
      | none => (.notFound, s)
      | some ev =>
        if actor ≠ ev.created_by then (.forbidden, s)
        else (.ok, updateMessage s pk fun m => { m with status := .rejected })

/-- Embedding of `OfferThreadView.post` (events/api/views_offers.py): the
explicit apply-to-event endpoint.  It requires a posted event, a
professional actor who is not the creator, an unlocked event, and fails
with an already-applied error when a thread for the pair exists; otherwise
it creates the thread and an optional initial chat message. -/
def offer_thread_post (s : NegState) (event_id actor : Nat) (msgtext : String)
    (now : Nat) : Result × NegState :=
  match s.events.find? (fun ev => ev.id == event_id && ev.is_posted) with
  | none => (.notFound, s)
  | some ev =>
    if ¬ isPro s actor then (.forbidden, s)
    else if ev.created_by = actor then (.badInput, s)
    else if ev.is_locked then (.errLocked, s)
    else if (findThread s ev.id actor).isSome then (.alreadyApplied, s)
    else
      let tid := s.next_id
      let s1 := { s with
        threads := s.threads ++ [{ id := tid, event := ev.id, professional := actor }],
        next_id := s.next_id + 1 }
      if msgtext = "" then (.created, s1)
      else
        (.created,
         { s1 with
            messages := s1.messages ++
              [{ id := s1.next_id, thread := tid, sender := actor,
                 sender_type := .professional, message := msgtext,
                 proposed_amount := none, proposed_currency := none,
                 event_currency := none, conversion_rate := none,
                 converted_amount := none, status := .pending, created_at := now }],
            next_id := s1.next_id + 1 })

/-- Embedding of `BookingRequestSerializer` validate-and-create
(events/api/serializers_offers.py): an active professional other than the
requester, end after start and a day not in the past, then a fresh
non-posted event, its thread, and an optional initial chat message. -/
def booking_request (s : NegState) (actor professional_id : Nat)
    (start_dt end_dt today_start : Int) (cur : Option Nat) (msgtext : String)
    (now : Nat) : Result × NegState :=
  if ¬ isPro s professional_id then (.notFound, s)
  else if actor = professional_id then (.badInput, s)
  else if end_dt ≤ start_dt then (.badInput, s)
  else if start_dt < today_start then (.badInput, s)
  else
    let eid := s.next_id
    let s1 := { s with
      events := s.events ++
        [{ id := eid, created_by := actor, currency := cur, is_locked := false,
           is_posted := false, accepted_thread := none, accepted_professional := none }],
      next_id := s.next_id + 1 }
    let gc := get_or_create_thread s1 eid professional_id
    let s2 := gc.2.2
    if msgtext = "" then (.created, s2)
    else
      (.created,
       { s2 with
          messages := s2.messages ++
            [{ id := s2.next_id, thread := gc.1, sender := actor,
               sender_type := .creator, message := msgtext,
               proposed_amount := none, proposed_currency := none,
               event_currency := none, conversion_rate := none,
               converted_amount := none, status := .pending, created_at := now }],
          next_id := s2.next_id + 1 })

/-- One request of the negotiation core: the step relation ranges over
every embedded mutating entry point with arbitrary arguments. -/
inductive Step : NegState → NegState → Prop where
  | getOrCreate (s : NegState) (e p : Nat) :
      Step s (get_or_create_thread s e p).2.2
  | sendOfferWeb (s : NegState) (e a : Nat) (amt : ℚ) (cur : Nat) (m : String) (now : Nat) :
      Step s (send_offer_message s e a amt cur m now).2
  | sendOfferApi (s : NegState) (e a : Nat) (amt : ℚ) (cur : Nat) (m : String) (now : Nat) :
      Step s (send_offer_api s e a amt cur m now).2
  | counterOffer (s : NegState) (e p a : Nat) (amt : ℚ) (m : String) (now : Nat) :
      Step s (counter_offer_view s e p a amt m now).2
  | chat (s : NegState) (tid a : Nat) (text : String) (now : Nat) :
      Step s (send_chat_message_view s tid a text now).2
  | acceptView (s : NegState) (e p a : Nat) :
      Step s (accept_offer_view s e p a).2
  | rejectView (s : NegState) (e p a : Nat) :
      Step s (reject_offer_view s e p a).2
  | actionPost (s : NegState) (e p a : Nat) (act : String) :
      Step s (offer_action_post s e p a act).2
  | msgAccept (s : NegState) (pk a : Nat) :
      Step s (offer_message_accept s pk a).2
  | msgReject (s : NegState) (pk a : Nat) :
      Step s (offer_message_reject s pk a).2
  | threadPost (s : NegState) (e a : Nat) (m : String) (now : Nat) :
      Step s (offer_thread_post s e a m now).2
  | booking (s : NegState) (a p : Nat) (sdt edt tds : Int) (cur : Option Nat)
      (m : String) (now : Nat) :
      Step s (booking_request s a p sdt edt tds cur m now).2

/-! ## Lemmas about the interval engine -/

theorem delete_day_fst (rows : List BusyTime) (u : Nat) (d : Int) :
    (delete_day rows u d).1 = rows.flatMap (processOne u d) := rfl

theorem processOne_not_selected (u : Nat) (d : Int) (bt : BusyTime)
    (h : ¬ selectedForDay u d bt) : processOne u d bt = [bt] := by
  unfold processOne
  rw [if_pos h]

theorem not_selected_of_mem_processOne (u : Nat) (d : Int) (bt b : BusyTime)
    (hb : b ∈ processOne u d bt) : ¬ selectedForDay u d b := by
  unfold processOne at hb
  by_cases h : selectedForDay u d bt
  · rw [if_neg (not_not_intro h)] at hb
    split_ifs at hb with h1 h2 h3
    · simp at hb
    · simp only [List.mem_singleton] at hb
      subst hb
      intro hsel
      have h3' := hsel.2.2
      simp only [selectedForDay, oneSecond] at h3' ⊢
      omega
    · simp only [List.mem_singleton] at hb
      subst hb
      intro hsel
      have h2' := hsel.2.1
      simp only [selectedForDay, oneSecond] at h2' ⊢
      omega
    · simp only [List.mem_cons, List.mem_singleton, List.not_mem_nil, or_false] at hb
      rcases hb with hb | hb
      · subst hb
        intro hsel
        have h3' := hsel.2.2
        simp only [selectedForDay, oneSecond] at h3' ⊢
        omega
      · subst hb
        intro hsel
        have h2' := hsel.2.1
        simp only [selectedForDay, oneSecond] at h2' ⊢
        omega
  · rw [if_pos h] at hb
    simp only [List.mem_singleton] at hb
    subst hb
    exact h

theorem flatMap_processOne_of_not_selected (u : Nat) (d : Int) (l : List BusyTime)
    (h : ∀ b ∈ l, ¬ selectedForDay u d b) : l.flatMap (processOne u d) = l := by
  induction l with
  | nil => rfl
  | cons a t ih =>
    rw [List.flatMap_cons, processOne_not_selected u d a (h a (List.mem_cons_self a t)),
      ih fun b hb => h b (List.mem_cons_of_mem a hb)]
    rfl

/-- C7: deleting the busy time of a day twice in a row is idempotent — the
second call reports zero deleted and zero modified rows and leaves the
owner's interval set exactly as the first call left it.  This holds for
every starting row set, owner and day: every row the first call emits lies
strictly outside the day filter, so the second pass selects nothing. -/
theorem C7_delete_day_idempotent (rows : List BusyTime) (u : Nat) (d : Int) :
    delete_day (delete_day rows u d).1 u d = ((delete_day rows u d).1, 0, 0) := by
  have hall : ∀ b ∈ (delete_day rows u d).1, ¬ selectedForDay u d b := by
    intro b hb
    rw [delete_day_fst] at hb
    rcases List.mem_flatMap.mp hb with ⟨a, -, hba⟩
    exact not_selected_of_mem_processOne u d a b hba
  unfold delete_day
  simp only [Prod.mk.injEq]
  refine ⟨flatMap_processOne_of_not_selected u d _ hall, ?_, ?_⟩
  · refine List.countP_eq_zero.mpr fun a ha => ?_
    simp only [decide_eq_true_eq]
    intro hc
    exact hall a ha hc.1
  · refine List.countP_eq_zero.mpr fun a ha => ?_
    simp only [decide_eq_true_eq]
    intro hc
    exact hall a ha hc.1

/-- C6 (counterexample): one all-day interval spanning day 8 through day 12,
split at day 10.  The instant one microsecond before the start of day 10
lies outside day 10 and was covered before the call but is not covered
after it: the total covered time outside the target day shrinks (the left
truncation stops a full second before the day, not one unit). -/
theorem C6_coverage_loss_counterexample :
    ¬ (day_start 10 ≤ day_start 10 - 1 ∧ day_start 10 - 1 ≤ day_end 10) ∧
    covered [⟨0, day_start 8, day_end 12, true, ""⟩] (day_start 10 - 1) ∧
    ¬ covered (delete_day [⟨0, day_start 8, day_end 12, true, ""⟩] 0 10).1
        (day_start 10 - 1) := by decide

/-- C6 (amended): deleting day `d` from a single interval spanning two days
before to two days after replaces it by exactly two intervals, reported as
zero deleted and one modified: a left part ending one second before the day
(strictly before the day start) and a right part starting one second after
the day end; no resulting interval intersects day `d`, and coverage at
every instant at least one second away from the day's boundaries is
unchanged.  (The instants strictly inside the two one-second buffers lose
coverage, which is what the counterexample exhibits.) -/
theorem C6_delete_day_split (u : Nat) (d : Int) (ad : Bool) (note : String) :
    (delete_day [⟨u, day_start (d - 2), day_end (d + 2), ad, note⟩] u d).1 =
      [⟨u, day_start (d - 2), day_start d - oneSecond, ad, note⟩,
       ⟨u, day_end d + oneSecond, day_end (d + 2), ad, note⟩] ∧
    (delete_day [⟨u, day_start (d - 2), day_end (d + 2), ad, note⟩] u d).2.1 = 0 ∧
    (delete_day [⟨u, day_start (d - 2), day_end (d + 2), ad, note⟩] u d).2.2 = 1 ∧
    (∀ b ∈ (delete_day [⟨u, day_start (d - 2), day_end (d + 2), ad, note⟩] u d).1,
      b.end_datetime < day_start d ∨ day_end d < b.start_datetime) ∧
    (∀ t : Int, (t ≤ day_start d - oneSecond ∨ day_end d + oneSecond ≤ t) →
      (covered (delete_day [⟨u, day_start (d - 2), day_end (d + 2), ad, note⟩] u d).1 t ↔
        covered [⟨u, day_start (d - 2), day_end (d + 2), ad, note⟩] t)) := by
  have hsel : selectedForDay u d ⟨u, day_start (d - 2), day_end (d + 2), ad, note⟩ := by
    refine ⟨rfl, ?_, ?_⟩ <;> simp only [day_start, day_end, dayLen] <;> omega
  have h1 : ¬ (day_start d ≤ day_start (d - 2) ∧ day_end (d + 2) ≤ day_end d) := by
    simp only [day_start, day_end, dayLen]
    omega
  have h2 : ¬ (day_start (d - 2) < day_start d ∧ day_end (d + 2) ≤ day_end d) := by
    simp only [day_start, day_end, dayLen]
    omega
  have h3 : ¬ (day_start d ≤ day_start (d - 2) ∧ day_end d < day_end (d + 2)) := by
    simp only [day_start, day_end, dayLen]
    omega
  have hproc : processOne u d ⟨u, day_start (d - 2), day_end (d + 2), ad, note⟩ =
      [⟨u, day_start (d - 2), day_start d - oneSecond, ad, note⟩,
       ⟨u, day_end d + oneSecond, day_end (d + 2), ad, note⟩] := by
    unfold processOne
    rw [if_neg (not_not_intro hsel), if_neg h1, if_neg h2, if_neg h3]
  have hfst : (delete_day [⟨u, day_start (d - 2), day_end (d + 2), ad, note⟩] u d).1 =
      [⟨u, day_start (d - 2), day_start d - oneSecond, ad, note⟩,
       ⟨u, day_end d + oneSecond, day_end (d + 2), ad, note⟩] := by
    rw [delete_day_fst, List.flatMap_cons, hproc]
    rfl
  refine ⟨hfst, ?_, ?_, ?_, ?_⟩
  · show List.countP _ _ = 0
    rw [List.countP_cons, List.countP_nil]
    rw [decide_eq_false fun hc => h1 hc.2]
    rfl
  · show List.countP _ _ = 1
    rw [List.countP_cons, List.countP_nil]
    rw [decide_eq_true (show selectedForDay u d _ ∧ ¬ _ from ⟨hsel, fun hc => h1 hc⟩)]
    rfl
  · rw [hfst]
    intro b hb
    simp only [List.mem_cons, List.mem_singleton, List.not_mem_nil, or_false] at hb
    rcases hb with hb | hb <;> subst hb
    · left
      simp only [oneSecond]
      omega
    · right
      simp only [oneSecond]
      omega
  · intro t ht
    rw [hfst]
    simp only [covered, List.mem_cons, List.mem_singleton, List.not_mem_nil, or_false,
      exists_eq_or_imp, exists_eq_left] at *
    simp only [day_start, day_end, dayLen, oneSecond] at *
    omega

/-- C8: evaluation at the failing input.  An interval beginning half a
second before day 10 and ending one hour into day 10 is truncated by
delete_day to end one second before the day start, producing a stored
interval whose end instant lies strictly before its start instant,
violating the end-after-start invariant of BusyTime. -/
theorem C8_end_before_start_eval :
    (delete_day [⟨0, day_start 10 - 500000, day_start 10 + 3600000000, false, ""⟩] 0 10).1 =
      [⟨0, day_start 10 - 500000, day_start 10 - 1000000, false, ""⟩] ∧
    ((delete_day [⟨0, day_start 10 - 500000, day_start 10 + 3600000000, false, ""⟩] 0 10).1.all
      fun b => decide (b.end_datetime < b.start_datetime)) = true := by decide

/-! ## Currency round trip -/

/-- C10 (counterexample): both directions stored with inconsistent rates.
get_rate resolves each direction from its own direct row, so the two
resolved rates multiply to 6, not 1 — far beyond rounding tolerance. -/
theorem C10_roundtrip_counterexample :
    get_rate [⟨0, 1, 2⟩, ⟨1, 0, 3⟩] 0 1 = some 2 ∧
    get_rate [⟨0, 1, 2⟩, ⟨1, 0, 3⟩] 1 0 = some 3 ∧
    (2 : ℚ) * 3 ≠ 1 :=
  ⟨by decide, by decide, by norm_num⟩

/-- C10 (amended): whenever exactly one direction between two distinct
currencies is stored and its rate is nonzero, both resolutions return a
rate and the two rates multiply to exactly 1 (the rational model of the
Decimal arithmetic is exact). -/
theorem C10_resolve_roundtrip (tbl : List ExchangeRate) (A B : Nat) (rec : ExchangeRate)
    (hAB : A ≠ B)
    (hd : findRate tbl A B = some rec)
    (hni : findRate tbl B A = none)
    (hnz : rec.rate ≠ 0) :
    ∃ r1 r2 : ℚ, get_rate tbl A B = some r1 ∧ get_rate tbl B A = some r2 ∧ r1 * r2 = 1 := by
  refine ⟨rec.rate, 1 / rec.rate, ?_, ?_, mul_one_div_cancel hnz⟩
  · unfold get_rate
    rw [if_neg hAB, hd]
  · unfold get_rate
    rw [if_neg fun h : B = A => hAB h.symm]
    simp only [hni, hd]
    rw [if_pos hnz]

/-- C10 witness: a one-row table from currency 5 to currency 7 at rate 2
resolves both ways with product 1. -/
theorem C10_resolve_roundtrip_witness :
    ∃ r1 r2 : ℚ, get_rate [⟨5, 7, 2⟩] 5 7 = some r1 ∧
      get_rate [⟨5, 7, 2⟩] 7 5 = some r2 ∧ r1 * r2 = 1 :=
  C10_resolve_roundtrip [⟨5, 7, 2⟩] 5 7 ⟨5, 7, 2⟩ (by decide) (by decide) (by decide)
    (by decide)

/-! ## Concrete negotiation scenarios -/

/-- An open posted event owned by user 1 with two professional threads
(pro 2 on thread 2, pro 3 on thread 3), each holding one pending priced
offer (messages 4 and 5). -/
def sTwoOffers : NegState :=
  { pros := [2, 3], rates := [],
    events := [⟨1, 1, some 10, false, true, none, none⟩],
    threads := [⟨2, 1, 2⟩, ⟨3, 1, 3⟩],
    messages :=
      [⟨4, 2, 2, .professional, "", some 450, some 11, some 10, none, none, .pending, 1⟩,
       ⟨5, 3, 3, .professional, "", some 400, some 10, some 10, none, none, .pending, 2⟩],
    next_id := 6 }

/-- Like sTwoOffers, but thread 3 holds a plain chat message (id 6, no
proposed amount, status column at its pending default). -/
def sChatMsg : NegState :=
  { pros := [2, 3], rates := [],
    events := [⟨1, 1, some 10, false, true, none, none⟩],
    threads := [⟨2, 1, 2⟩, ⟨3, 1, 3⟩],
    messages :=
      [⟨4, 2, 2, .professional, "", some 450, some 11, some 10, none, none, .pending, 1⟩,
       ⟨6, 3, 3, .professional, "hello", none, none, none, none, none, .pending, 2⟩],
    next_id := 7 }

/-- One thread (thread 2, pro 2) holding two priced pending messages: the
professional's offer (id 4) and the creator's later counter (id 5). -/
def sSameThread : NegState :=
  { pros := [2], rates := [],
    events := [⟨1, 1, some 10, false, true, none, none⟩],
    threads := [⟨2, 1, 2⟩],
    messages :=
      [⟨4, 2, 2, .professional, "", some 450, some 10, some 10, none, none, .pending, 1⟩,
       ⟨5, 2, 1, .creator, "", some 420, some 10, some 10, some 1, some 420, .pending, 2⟩],
    next_id := 6 }

/-- Accepted messages of an event, across all of its threads. -/
def acceptedCount (s : NegState) (e : Nat) : Nat :=
  (s.messages.filter fun m => m.status == Status.accepted && threadEvent s m.thread == some e).length

/-- C1: evaluation at the failing input.  After the creator accepts pro 2's
offer through the web view, the event is locked but accepted_professional
is still null (the view never sets it); a second accept for pro 3 through
the API action view succeeds as well — it performs no lock check — leaving
two messages of the same event with status accepted. -/
theorem C1_double_accept_eval :
    ((findEvent (accept_offer_view sTwoOffers 1 2 1).2 1).map fun ev => ev.is_locked) =
      some true ∧
    acceptedCount (accept_offer_view sTwoOffers 1 2 1).2 1 = 1 ∧
    ((findEvent (accept_offer_view sTwoOffers 1 2 1).2 1).map fun ev =>
      ev.accepted_professional) = some none ∧
    (offer_action_post (accept_offer_view sTwoOffers 1 2 1).2 1 3 1 "accept").1 =
      Result.ok ∧
    acceptedCount (offer_action_post (accept_offer_view sTwoOffers 1 2 1).2 1 3 1 "accept").2 1 =
      2 := by decide

/-- C2: evaluation at the failing input.  Accepting pro 2's offer through
OfferActionView locks the event but performs no cascade: the pending
priced offer of pro 3 (message 5, on thread 3 of the same event) is still
pending when the call returns. -/
theorem C2_missing_cascade_eval :
    (offer_action_post sTwoOffers 1 2 1 "accept").1 = Result.ok ∧
    ((findEvent (offer_action_post sTwoOffers 1 2 1 "accept").2 1).map fun ev =>
      ev.is_locked) = some true ∧
    ((findMessage (offer_action_post sTwoOffers 1 2 1 "accept").2 5).map fun m =>
      (m.proposed_amount.isSome, m.status)) = some (true, Status.pending) ∧
    threadEvent (offer_action_post sTwoOffers 1 2 1 "accept").2 3 = some 1 := by decide

/-- C9: evaluation at the failing input.  The chat message 6 carries no
proposed amount, yet accepting the priced offer 4 through the message API
flips it from pending to rejected: the cascade filter selects every
pending message of the event, priced or not. -/
theorem C9_cascade_rejects_chat_eval :
    ((findMessage sChatMsg 6).map fun m => (m.proposed_amount, m.status)) =
      some (none, Status.pending) ∧
    (offer_message_accept sChatMsg 4 1).1 = Result.ok ∧
    ((findMessage (offer_message_accept sChatMsg 4 1).2 6).map fun m =>
      (m.proposed_amount, m.status)) = some (none, Status.rejected) := by decide

/-- C3 (counterexample): the latest priced message of thread 2 is the
counter 5, yet the message API accepts the older offer 4 by primary key,
and a subsequent reject moves the same message from accepted to rejected —
a status change neither from pending nor restricted to the latest priced
message. -/
theorem C3_accepted_to_rejected_counterexample :
    ((latestPricedMessage sSameThread 2).map fun m => m.id) = some 5 ∧
    ((findMessage (offer_message_accept sSameThread 4 1).2 4).map fun m => m.status) =
      some Status.accepted ∧
    ((findMessage (offer_message_reject (offer_message_accept sSameThread 4 1).2 4 1).2 4).map
      fun m => m.status) = some Status.rejected := by decide

/-- C5 (counterexample): with the thread for (event 1, pro 2) already in
place, the explicit apply endpoint does not return the existing thread: it
fails with an already-applied error (leaving the store unchanged). -/
theorem C5_thread_post_fails_counterexample :
    (findThread sTwoOffers 1 2).isSome = true ∧
    (offer_thread_post sTwoOffers 1 2 "" 9).1 = Result.alreadyApplied ∧
    (offer_thread_post sTwoOffers 1 2 "" 9).2 = sTwoOffers := by decide

/-! ## SendOffer against a locked event -/

theorem find?_and_of_find? {α : Type} (l : List α) (p q : α → Bool) (x : α)
    (h : l.find? p = some x) (hq : q x = true) :
    l.find? (fun y => p y && q y) = some x := by
  induction l with
  | nil => simp at h
  | cons a t ih =>
    by_cases hpa : p a = true
    · rw [List.find?_cons_of_pos _ hpa] at h
      injection h with h
      subst h
      have hcond : (p a && q a) = true := by rw [hpa, hq]; rfl
      exact List.find?_cons_of_pos t hcond
    · rw [List.find?_cons_of_neg _ hpa] at h
      have hcond : ¬ ((fun y => p y && q y) a = true) := by
        simp only [Bool.and_eq_true]
        intro hc
        exact hpa hc.1
      rw [List.find?_cons_of_neg t hcond]
      exact ih h

/-- C4: a SendOffer call against an event that is locked in the state the
transaction writes against fails with the lock conflict error and returns
the store unchanged: no thread is created and no message is appended.
Both the web view (whose refresh_from_db re-check reads this same
write-time state) and the API serializer path are covered; the actor is a
professional and the event is posted so that no earlier guard fires. -/
theorem C4_send_offer_locked_conflict (s : NegState) (event_id actor : Nat) (amount : ℚ)
    (from_cur : Nat) (msgtext : String) (now : Nat) (ev : Event)
    (hev : findEvent s event_id = some ev)
    (hlk : ev.is_locked = true)
    (hpro : isPro s actor = true)
    (hposted : ev.is_posted = true) :
    send_offer_message s event_id actor amount from_cur msgtext now = (Result.errLocked, s) ∧
    send_offer_api s event_id actor amount from_cur msgtext now = (Result.errLocked, s) := by
  constructor
  · unfold send_offer_message
    rw [hev]
    simp only [hlk, if_true]
  · have hfind2 : s.events.find? (fun y => y.id == event_id && y.is_posted) = some ev :=
      find?_and_of_find? s.events (fun y => y.id == event_id) (fun y => y.is_posted) ev hev
        hposted
    unfold send_offer_api
    rw [if_neg (not_not_intro hpro)]
    simp only [hfind2]
    simp only [hlk, if_true]

/-- Store with a locked, posted event 1 (accepted thread 2, pro 2). -/
def sLocked : NegState :=
  { pros := [2], rates := [],
    events := [⟨1, 1, some 10, true, true, some 2, some 2⟩],
    threads := [⟨2, 1, 2⟩], messages := [], next_id := 3 }

/-- C4 witness: professional 2 sending an offer of 450 in currency 11
against the locked event 1 gets the conflict error from both entry points
and the store is untouched. -/
theorem C4_send_offer_locked_conflict_witness :
    send_offer_message sLocked 1 2 450 11 "" 9 = (Result.errLocked, sLocked) ∧
    send_offer_api sLocked 1 2 450 11 "" 9 = (Result.errLocked, sLocked) :=
  C4_send_offer_locked_conflict sLocked 1 2 450 11 "" 9
    ⟨1, 1, some 10, true, true, some 2, some 2⟩ (by decide) rfl (by decide) rfl

/-! ## Thread uniqueness -/

/-- Number of stored threads for the (event, professional) pair. -/
def pairCount (s : NegState) (e p : Nat) : Nat :=
  (s.threads.filter fun t => t.event == e && t.professional == p).length

theorem get_or_create_of_found {s : NegState} {e p : Nat} {t : OfferThread}
    (hft : findThread s e p = some t) :
    get_or_create_thread s e p = (t.id, false, s) := by
  unfold get_or_create_thread
  rw [hft]

theorem get_or_create_of_missing {s : NegState} {e p : Nat}
    (hft : findThread s e p = none) :
    get_or_create_thread s e p =
      (s.next_id, true,
       { s with threads := s.threads ++ [{ id := s.next_id, event := e, professional := p }],
                next_id := s.next_id + 1 }) := by
  unfold get_or_create_thread
  rw [hft]

theorem findThread_append_self (s : NegState) (e p : Nat)
    (hft : findThread s e p = none) :
    findThread
      { s with threads := s.threads ++ [{ id := s.next_id, event := e, professional := p }],
               next_id := s.next_id + 1 } e p =
      some { id := s.next_id, event := e, professional := p } := by
  unfold findThread at hft ⊢
  rw [List.find?_append, hft, Option.none_or]
  exact List.find?_cons_of_pos _ (by simp)

/-- C5 (amended): repeated get_or_create_thread calls return the same
thread identity, the second call changing nothing; neither
get_or_create_thread nor the explicit apply endpoint ever pushes the pair
count above one; and when a thread for the pair already exists the apply
endpoint does not create (it answers with an error and leaves the store
unchanged) instead of returning the existing thread. -/
theorem C5_thread_uniqueness (s : NegState) (e p : Nat) (msgtext : String) (now : Nat) :
    ((get_or_create_thread (get_or_create_thread s e p).2.2 e p).1 =
        (get_or_create_thread s e p).1 ∧
      (get_or_create_thread (get_or_create_thread s e p).2.2 e p).2.2 =
        (get_or_create_thread s e p).2.2) ∧
    (pairCount s e p ≤ 1 → pairCount (get_or_create_thread s e p).2.2 e p ≤ 1) ∧
    (pairCount s e p ≤ 1 → pairCount (offer_thread_post s e p msgtext now).2 e p ≤ 1) ∧
    ((findThread s e p).isSome = true →
      (offer_thread_post s e p msgtext now).1 ≠ Result.created ∧
      (offer_thread_post s e p msgtext now).2 = s) := by
  refine ⟨?_, ?_, ?_, ?_⟩
  · cases hft : findThread s e p with
    | some t =>
      simp [get_or_create_of_found hft]
    | none =>
      simp [get_or_create_of_missing hft,
        get_or_create_of_found (findThread_append_self s e p hft)]
  · intro hcount
    cases hft : findThread s e p with
    | some t =>
      simpa [get_or_create_of_found hft] using hcount
    | none =>
      have hempty : s.threads.filter (fun t => t.event == e && t.professional == p) = [] :=
        List.filter_eq_nil_iff.mpr (List.find?_eq_none.mp hft)
      simp [get_or_create_of_missing hft, pairCount, List.filter_append, hempty]
  · intro hcount
    cases hevf : s.events.find? (fun ev => ev.id == e && ev.is_posted) with
    | none =>
      have hpost : offer_thread_post s e p msgtext now = (Result.notFound, s) := by
        unfold offer_thread_post
        rw [hevf]
      rw [hpost]
      exact hcount
    | some ev =>
      have hevid : ev.id = e := by
        have := List.find?_some hevf
        simp only [Bool.and_eq_true, beq_iff_eq] at this
        exact this.1
      by_cases hg1 : isPro s p = true
      · by_cases hg2 : ev.created_by = p
        · have hpost : offer_thread_post s e p msgtext now = (Result.badInput, s) := by
            simp [offer_thread_post, hevf, hg1, hg2]
          rw [hpost]
          exact hcount
        · by_cases hg3 : ev.is_locked = true
          · have hpost : offer_thread_post s e p msgtext now = (Result.errLocked, s) := by
              simp [offer_thread_post, hevf, hg1, hg2, hg3]
            rw [hpost]
            exact hcount
          · by_cases hg4 : (findThread s ev.id p).isSome = true
            · have hpost : offer_thread_post s e p msgtext now =
                  (Result.alreadyApplied, s) := by
                simp [offer_thread_post, hevf, hg1, hg2, hg3, hg4]
              rw [hpost]
              exact hcount
            · have hnone : findThread s e p = none := by
                rw [hevid] at hg4
                exact Option.not_isSome_iff_eq_none.mp hg4
              have hempty :
                  s.threads.filter (fun t => t.event == e && t.professional == p) = [] :=
                List.filter_eq_nil_iff.mpr (List.find?_eq_none.mp hnone)
              have hthreads : (offer_thread_post s e p msgtext now).2.threads =
                  s.threads ++ [{ id := s.next_id, event := ev.id, professional := p }] := by
                by_cases hg5 : msgtext = "" <;>
                  simp [offer_thread_post, hevf, hg1, hg2, hg3, hg4, hg5]
              unfold pairCount
              rw [hthreads, List.filter_append, hempty, hevid]
              simp
      · have hpost : offer_thread_post s e p msgtext now = (Result.forbidden, s) := by
          simp [offer_thread_post, hevf, hg1]
        rw [hpost]
        exact hcount
  · intro hsome
    cases hevf : s.events.find? (fun ev => ev.id == e && ev.is_posted) with
    | none =>
      have hpost : offer_thread_post s e p msgtext now = (Result.notFound, s) := by
        unfold offer_thread_post
        rw [hevf]
      rw [hpost]
      exact ⟨fun hh => Result.noConfusion hh, rfl⟩
    | some ev =>
      have hevid : ev.id = e := by
        have := List.find?_some hevf
        simp only [Bool.and_eq_true, beq_iff_eq] at this
        exact this.1
      by_cases hg1 : isPro s p = true
      · by_cases hg2 : ev.created_by = p
        · have hpost : offer_thread_post s e p msgtext now = (Result.badInput, s) := by
            simp [offer_thread_post, hevf, hg1, hg2]
          rw [hpost]
          exact ⟨fun hh => Result.noConfusion hh, rfl⟩
        · by_cases hg3 : ev.is_locked = true
          · have hpost : offer_thread_post s e p msgtext now = (Result.errLocked, s) := by
              simp [offer_thread_post, hevf, hg1, hg2, hg3]
            rw [hpost]
            exact ⟨fun hh => Result.noConfusion hh, rfl⟩
          · by_cases hg4 : (findThread s ev.id p).isSome = true
            · have hpost : offer_thread_post s e p msgtext now =
                  (Result.alreadyApplied, s) := by
                simp [offer_thread_post, hevf, hg1, hg2, hg3, hg4]
              rw [hpost]
              exact ⟨fun hh => Result.noConfusion hh, rfl⟩
            · rw [hevid] at hg4
              exact absurd hsome hg4
      · have hpost : offer_thread_post s e p msgtext now = (Result.forbidden, s) := by
          simp [offer_thread_post, hevf, hg1]
        rw [hpost]
        exact ⟨fun hh => Result.noConfusion hh, rfl⟩

/-- C5 witness: on the concrete store sTwoOffers (thread for (1, 2)
present), a second apply attempt does not create and changes nothing,
and the pair count stays at one. -/
theorem C5_thread_uniqueness_witness :
    pairCount (offer_thread_post sTwoOffers 1 2 "" 9).2 1 2 ≤ 1 ∧
    (offer_thread_post sTwoOffers 1 2 "" 9).1 ≠ Result.created ∧
    (offer_thread_post sTwoOffers 1 2 "" 9).2 = sTwoOffers :=
  ⟨(C5_thread_uniqueness sTwoOffers 1 2 "" 9).2.2.1 (by decide),
   (C5_thread_uniqueness sTwoOffers 1 2 "" 9).2.2.2 (by decide)⟩

/-- C6 witness: instantiating the split theorem at owner 0, day 10, the
coverage clause at the left buffer edge. -/
theorem C6_delete_day_split_witness :
    covered (delete_day [⟨0, day_start (10 - 2), day_end (10 + 2), true, ""⟩] 0 10).1
        (day_start 10 - oneSecond) ↔
      covered [⟨0, day_start (10 - 2), day_end (10 + 2), true, ""⟩] (day_start 10 - oneSecond) :=
  (C6_delete_day_split 0 10 true "").2.2.2.2 (day_start 10 - oneSecond) (Or.inl (le_refl _))

/-! ## Status evolution of messages -/

/-- A message rewrite that keeps ids and only ever writes the accepted or
rejected status. -/
def StatusSafe (f : OfferMessage → OfferMessage) : Prop :=
  (∀ x, (f x).id = x.id) ∧
  ∀ x, (f x).status = x.status ∨ (f x).status = Status.accepted ∨
    (f x).status = Status.rejected

/-- How one request changes the message log: existing rows are rewritten by
a status-safe function and any appended rows carry fresh primary keys. -/
def MessagesEvolve (s sNew : NegState) : Prop :=
  ∃ f tail, StatusSafe f ∧ sNew.messages = s.messages.map f ++ tail ∧
    ∀ m ∈ tail, s.next_id ≤ m.id

theorem statusSafe_id : StatusSafe id :=
  ⟨fun _ => rfl, fun _ => Or.inl rfl⟩

theorem messagesEvolve_map (s sNew : NegState) (f : OfferMessage → OfferMessage)
    (hsafe : StatusSafe f) (h : sNew.messages = s.messages.map f) :
    MessagesEvolve s sNew :=
  ⟨f, [], hsafe, by rw [h, List.append_nil], by simp⟩

theorem messagesEvolve_of_eq (s sNew : NegState) (h : sNew.messages = s.messages) :
    MessagesEvolve s sNew :=
  messagesEvolve_map s sNew id statusSafe_id (by rw [h, List.map_id])

theorem messagesEvolve_append_one (s sNew : NegState) (new : OfferMessage)
    (h : sNew.messages = s.messages ++ [new]) (hid : s.next_id ≤ new.id) :
    MessagesEvolve s sNew :=
  ⟨id, [new], statusSafe_id, by rw [h, List.map_id], by simpa using hid⟩

theorem statusSafe_update (mid : Nat) (st : Status)
    (hst : st = Status.accepted ∨ st = Status.rejected) :
    StatusSafe fun m => if m.id = mid then { m with status := st } else m := by
  constructor
  · intro x
    by_cases h : x.id = mid <;> simp [h]
  · intro x
    by_cases h : x.id = mid
    · simp only [if_pos h]
      rcases hst with h1 | h1
      · exact Or.inr (Or.inl h1)
      · exact Or.inr (Or.inr h1)
    · simp only [if_neg h]
      exact Or.inl trivial

theorem statusSafe_reject_if (c : OfferMessage → Prop) [DecidablePred c] :
    StatusSafe fun m => if c m then { m with status := Status.rejected } else m := by
  constructor
  · intro x
    by_cases h : c x <;> simp [h]
  · intro x
    by_cases h : c x
    · simp only [if_pos h]
      exact Or.inr (Or.inr trivial)
    · simp only [if_neg h]
      exact Or.inl trivial

theorem statusSafe_comp (f g : OfferMessage → OfferMessage)
    (hf : StatusSafe f) (hg : StatusSafe g) : StatusSafe (g ∘ f) := by
  constructor
  · intro x
    show (g (f x)).id = x.id
    rw [hg.1, hf.1]
  · intro x
    rcases hg.2 (f x) with h | h | h
    · rcases hf.2 x with h2 | h2 | h2
      · exact Or.inl (h.trans h2)
      · exact Or.inr (Or.inl (h.trans h2))
      · exact Or.inr (Or.inr (h.trans h2))
    · exact Or.inr (Or.inl h)
    · exact Or.inr (Or.inr h)

theorem get_or_create_thread_messages (s : NegState) (e p : Nat) :
    (get_or_create_thread s e p).2.2.messages = s.messages := by
  unfold get_or_create_thread
  cases hft : findThread s e p <;> rfl

theorem get_or_create_thread_next_id_le (s : NegState) (e p : Nat) :
    s.next_id ≤ (get_or_create_thread s e p).2.2.next_id := by
  unfold get_or_create_thread
  cases hft : findThread s e p
  · exact Nat.le_succ _
  · exact Nat.le_refl _

/-- Every embedded request handler rewrites the message log in a
status-safe way: existing rows keep their ids and are only ever moved to
accepted or rejected, and appended rows take fresh ids. -/
theorem step_messagesEvolve (s sNew : NegState) (h : Step s sNew) :
    MessagesEvolve s sNew := by
  cases h with
  | getOrCreate e p =>
    exact messagesEvolve_of_eq _ _ (get_or_create_thread_messages s e p)
  | sendOfferWeb e a amt cur m now =>
    unfold send_offer_message get_or_create_thread
    repeat' split
    all_goals
      first
        | exact messagesEvolve_of_eq _ _ rfl
        | exact messagesEvolve_append_one _ _ _ rfl (Nat.le_refl _)
        | exact messagesEvolve_append_one _ _ _ rfl (Nat.le_succ _)
  | sendOfferApi e a amt cur m now =>
    unfold send_offer_api get_or_create_thread
    repeat' split
    all_goals
      first
        | exact messagesEvolve_of_eq _ _ rfl
        | exact messagesEvolve_append_one _ _ _ rfl (Nat.le_refl _)
        | exact messagesEvolve_append_one _ _ _ rfl (Nat.le_succ _)
  | counterOffer e p a amt m now =>
    unfold counter_offer_view
    repeat' split
    all_goals
      first
        | exact messagesEvolve_of_eq _ _ rfl
        | exact messagesEvolve_append_one _ _ _ rfl (Nat.le_refl _)
  | chat tid a text now =>
    unfold send_chat_message_view
    repeat' split
    all_goals
      first
        | exact messagesEvolve_of_eq _ _ rfl
        | exact messagesEvolve_append_one _ _ _ rfl (Nat.le_refl _)
  | acceptView e p a =>
    unfold accept_offer_view
    repeat' split
    all_goals
      first
        | exact messagesEvolve_of_eq _ _ rfl
        | exact messagesEvolve_map _ _ _ (statusSafe_update _ _ (Or.inl rfl)) rfl
  | rejectView e p a =>
    unfold reject_offer_view
    repeat' split
    all_goals
      first
        | exact messagesEvolve_of_eq _ _ rfl
        | exact messagesEvolve_map _ _ _ (statusSafe_update _ _ (Or.inr rfl)) rfl
  | actionPost e p a act =>
    unfold offer_action_post
    repeat' split
    all_goals
      first
        | exact messagesEvolve_of_eq _ _ rfl
        | exact messagesEvolve_map _ _ _ (statusSafe_update _ _ (Or.inl rfl)) rfl
        | exact messagesEvolve_map _ _ _ (statusSafe_update _ _ (Or.inr rfl)) rfl
  | msgAccept pk a =>
    unfold offer_message_accept
    repeat' split
    all_goals
      first
        | exact messagesEvolve_of_eq _ _ rfl
        | exact messagesEvolve_map _ _ _
            (statusSafe_comp _ _ (statusSafe_update _ _ (Or.inl rfl))
              (statusSafe_reject_if _))
            (List.map_map _ _ _)
  | msgReject pk a =>
    unfold offer_message_reject
    repeat' split
    all_goals
      first
        | exact messagesEvolve_of_eq _ _ rfl
        | exact messagesEvolve_map _ _ _ (statusSafe_update _ _ (Or.inr rfl)) rfl
  | threadPost e a m now =>
    unfold offer_thread_post
    repeat' split
    all_goals
      first
        | exact messagesEvolve_of_eq _ _ rfl
        | exact messagesEvolve_append_one _ _ _ rfl (Nat.le_succ _)
  | booking a p sdt edt tds cur m now =>
    unfold booking_request get_or_create_thread
    dsimp only
    repeat' split
    all_goals
      first
        | exact messagesEvolve_of_eq _ _ rfl
        | exact messagesEvolve_append_one _ _ _ rfl (Nat.le_succ _)
        | exact messagesEvolve_append_one _ _ _ rfl (by dsimp only; omega)

/-- C3 (amended): across every operation of the negotiation core, a stored
message keeps its id, and the only status values an operation ever writes
are accepted and rejected — no message ever returns to pending.  (The
current status of the target is not checked, so accepted to rejected does
occur, as the counterexample shows.)  The hypotheses state that primary
keys in the store are consistent: message ids are distinct and below the
id counter. -/
theorem C3_status_evolution (s sNew : NegState) (hstep : Step s sNew)
    (hnd : (s.messages.map fun m => m.id).Nodup)
    (hwf : ∀ m ∈ s.messages, m.id < s.next_id) :
    ∀ m ∈ s.messages, ∀ mNew ∈ sNew.messages, mNew.id = m.id →
      mNew.status = m.status ∨ mNew.status = Status.accepted ∨
        mNew.status = Status.rejected := by
  obtain ⟨f, tail, hsafe, hmsgs, htail⟩ := step_messagesEvolve s sNew hstep
  intro m hm mNew hmNew heq
  rw [hmsgs] at hmNew
  rcases List.mem_append.mp hmNew with hmem | hmem
  · rcases List.mem_map.mp hmem with ⟨x, hx, rfl⟩
    have hxid : x.id = m.id := by
      rw [← hsafe.1 x]
      exact heq
    have hxm : x = m := List.inj_on_of_nodup_map hnd hx hm hxid
    subst hxm
    exact hsafe.2 x
  · exfalso
    have h1 := htail mNew hmem
    have h2 := hwf m hm
    omega

/-- C3 witness: rejecting through the web view on the concrete store
sSameThread rewrites the counter message 5, and the rewritten row carries
an allowed status. -/
theorem C3_status_evolution_witness :
    (⟨5, 2, 1, SenderType.creator, "", some 420, some 10, some 10, some 1, some 420,
        Status.rejected, 2⟩ : OfferMessage).status =
      (⟨5, 2, 1, SenderType.creator, "", some 420, some 10, some 10, some 1, some 420,
        Status.pending, 2⟩ : OfferMessage).status ∨
    (⟨5, 2, 1, SenderType.creator, "", some 420, some 10, some 10, some 1, some 420,
        Status.rejected, 2⟩ : OfferMessage).status = Status.accepted ∨
    (⟨5, 2, 1, SenderType.creator, "", some 420, some 10, some 10, some 1, some 420,
        Status.rejected, 2⟩ : OfferMessage).status = Status.rejected :=
  C3_status_evolution sSameThread _ (Step.rejectView sSameThread 1 2 1) (by decide)
    (by decide)
    ⟨5, 2, 1, SenderType.creator, "", some 420, some 10, some 10, some 1, some 420,
      Status.pending, 2⟩ (by decide)
    ⟨5, 2, 1, SenderType.creator, "", some 420, some 10, some 10, some 1, some 420,
      Status.rejected, 2⟩ (by decide) (by decide)

end Showdan
